import Mathlib

/-!
# Verification of the perf-event ring-buffer record parser

Shallow embedding of the record-parsing core of the `perf-event` crate
(`src/perf-event/src/sampler.rs` and `src/perf-event/src/samples/*.rs`).

Bytes are modelled as `List Nat` (each element a `u8` value); multi-byte
integers are decoded little-endian, matching the native endianness the crate
assumes (its own tests are gated on `target_endian = "little"`).

Rust code in `samples/` returns plain values and panics on insufficient
input (`assert!` in `ParseBuf::parse_vec`, the panics of `bytes::Buf`
getters).  A panic is modelled by the `POr.panics` outcome; `POr.ok` is a
normal return.
-/

namespace PerfEv

/-- Outcome of running Rust code that either returns normally or panics.
`panics` models a Rust panic (a failed `assert!` or an out-of-bounds
`bytes::Buf` read); these functions have no error-return path. -/
inductive POr (α : Type) : Type
  | panics : POr α
  | ok : α → POr α
deriving DecidableEq, Repr

/-- State-passing parser over a byte list: consumes bytes from the front,
panicking (not erroring) when the data runs out, exactly like the
`bytes::Buf`-based parsers in `samples/`. -/
def PM (α : Type) : Type := List Nat → POr (α × List Nat)

def PM.pure {α : Type} (a : α) : PM α := fun buf => .ok (a, buf)

def PM.bind {α β : Type} (p : PM α) (f : α → PM β) : PM β := fun buf =>
  match p buf with
  | .panics => .panics
  | .ok (a, rest) => f a rest

instance : Monad PM where
  pure := PM.pure
  bind := PM.bind

/-- Little-endian value of a byte list (first byte is least significant). -/
def leNat : List Nat → Nat
  | [] => 0
  | b :: rest => b + 256 * leNat rest

/-- `bitflags` `contains`: all bits of `flag` are set in `bits`. -/
def hasFlag (bits flag : Nat) : Bool := bits &&& flag == flag

/-- `u64::count_ones` for a 64-bit value. -/
def countOnes64 (n : Nat) : Nat := (List.range 64).countP fun i => n.testBit i

/-- Strip trailing NUL bytes (the `while let Some(b'\0') = vec.last()` loops). -/
def stripTrailingNuls (l : List Nat) : List Nat :=
  (l.reverse.dropWhile (· == 0)).reverse

/-- Read exactly `n` bytes; panics when fewer remain.  This is the common
behaviour of `bytes::Buf` getters and of `ParseBuf::parse_vec` /
`parse_bytes`, which `assert!(len <= self.remaining())`. -/
def getBytes (n : Nat) : PM (List Nat) := fun buf =>
  if n ≤ buf.length then .ok (buf.take n, buf.drop n) else .panics

/-- `Buf::get_u32_ne` (native endian = little endian on supported targets). -/
def getU32 : PM Nat := PM.bind (getBytes 4) fun b => PM.pure (leNat b)

/-- `Buf::get_u64_ne`. -/
def getU64 : PM Nat := PM.bind (getBytes 8) fun b => PM.pure (leNat b)

/-- `Buf::get_u16_ne`. -/
def getU16 : PM Nat := PM.bind (getBytes 2) fun b => PM.pure (leNat b)

/-- `ParseBuf::parse_vec`. -/
def parse_vec (len : Nat) : PM (List Nat) := getBytes len

/-- `ParseBuf::parse_bytes::<N>`. -/
def parse_bytes (n : Nat) : PM (List Nat) := getBytes n

/-- `ParseBuf::parse_remainder`: all remaining bytes. -/
def parse_remainder : PM (List Nat) := fun buf => .ok (buf, [])

/-- `Option<T>` production `cond.then(|| parse...)`. -/
def condParse {α : Type} (c : Bool) (p : PM α) : PM (Option α) :=
  if c then PM.bind p fun a => PM.pure (some a) else PM.pure none

/-- `std::iter::repeat_with(|| ...).take(n).collect()` over a parser. -/
def replicatePM {α : Type} : Nat → PM α → PM (List α)
  | 0, _ => PM.pure []
  | n + 1, p => PM.bind p fun a => PM.bind (replicatePM n p) fun as => PM.pure (a :: as)

/-! ## Flag constants (`perf_event.h` values used through `bindings::*`) -/

namespace SampleType

def IP : Nat := 1 <<< 0
def TID : Nat := 1 <<< 1
def TIME : Nat := 1 <<< 2
def ADDR : Nat := 1 <<< 3
def READ : Nat := 1 <<< 4
def CALLCHAIN : Nat := 1 <<< 5
def ID : Nat := 1 <<< 6
def CPU : Nat := 1 <<< 7
def PERIOD : Nat := 1 <<< 8
def STREAM_ID : Nat := 1 <<< 9
def RAW : Nat := 1 <<< 10
def BRANCH_STACK : Nat := 1 <<< 11
def REGS_USER : Nat := 1 <<< 12
def STACK_USER : Nat := 1 <<< 13
def WEIGHT : Nat := 1 <<< 14
def DATA_SRC : Nat := 1 <<< 15
def IDENTIFIER : Nat := 1 <<< 16
def TRANSACTION : Nat := 1 <<< 17
def REGS_INTR : Nat := 1 <<< 18
def PHYS_ADDR : Nat := 1 <<< 19
def AUX : Nat := 1 <<< 20
def CGROUP : Nat := 1 <<< 21
def DATA_PAGE_SIZE : Nat := 1 <<< 22
def CODE_PAGE_SIZE : Nat := 1 <<< 23
def WEIGHT_STRUCT : Nat := 1 <<< 24

end SampleType

namespace ReadFormat

def TOTAL_TIME_ENABLED : Nat := 1 <<< 0
def TOTAL_TIME_RUNNING : Nat := 1 <<< 1
def ID : Nat := 1 <<< 2
def GROUP : Nat := 1 <<< 3

end ReadFormat

namespace BranchSampleType

/-- `PERF_SAMPLE_BRANCH_HW_INDEX`. -/
def HW_INDEX : Nat := 1 <<< 17

end BranchSampleType

namespace SampleRegsAbi

/-- `PERF_SAMPLE_REGS_ABI_NONE`. -/
def NONE : Nat := 0

end SampleRegsAbi

namespace RecordType

def MMAP : Nat := 1
def LOST : Nat := 2
def COMM : Nat := 3
def EXIT : Nat := 4
def THROTTLE : Nat := 5
def UNTHROTTLE : Nat := 6
def FORK : Nat := 7
def READ : Nat := 8
def SAMPLE : Nat := 9
def MMAP2 : Nat := 10
def AUX : Nat := 11
def ITRACE_START : Nat := 12
def LOST_SAMPLES : Nat := 13
def SWITCH : Nat := 14
def SWITCH_CPU_WIDE : Nat := 15
def NAMESPACES : Nat := 16
def KSYMBOL : Nat := 17
def BPF_EVENT : Nat := 18
def CGROUP : Nat := 19
def TEXT_POKE : Nat := 20

end RecordType

/-- `RecordMiscFlags::SWITCH_OUT` (`PERF_RECORD_MISC_SWITCH_OUT`). -/
def MISC_SWITCH_OUT : Nat := 1 <<< 13

/-- `ParseConfig` (`samples/mod.rs`).  The `branch_sample_type` field is the
one consulted by `Sample::parse` via `config.branch_sample_type`
(`samples/sample.rs`); it is carried here alongside the fields listed in
`samples/mod.rs`. -/
structure ParseConfig where
  sample_type : Nat
  read_format : Nat
  sample_id_all : Bool
  regs_user : Nat
  regs_intr : Nat
  branch_sample_type : Nat
deriving DecidableEq, Repr

/-! ## `ByteBuffer` (`sampler.rs`): one contiguous span or two disjoint spans -/

/-- `ByteBuffer<'a>`: `Single(&[u8])` or `Split([&[u8]; 2])`. -/
inductive ByteBuffer : Type
  | single (buf : List Nat) : ByteBuffer
  | split (a b : List Nat) : ByteBuffer
deriving DecidableEq, Repr

namespace ByteBuffer

/-- The byte sequence a buffer denotes (first span then second span). -/
def toBytes : ByteBuffer → List Nat
  | single buf => buf
  | split a b => a ++ b

/-- `ByteBuffer::len`. -/
def len : ByteBuffer → Nat
  | single buf => buf.length
  | split a b => a.length + b.length

/-- `ByteBuffer::truncate(new_len)`; `none` models the
`assert!(new_len <= self.len())` panic. -/
def truncate (bb : ByteBuffer) (new_len : Nat) : Option ByteBuffer :=
  if new_len ≤ bb.len then
    some (match bb with
      | single buf => single (buf.take new_len)
      | split a b =>
        if new_len ≤ a.length then single (a.take new_len)
        else split a (b.take (new_len - a.length)))
  else none

/-- `ByteBuffer::copy_to_slice(dst)` with `dst.len() = n`: returns the copied
bytes and the shrunk buffer; `none` models the
`assert!(self.len() >= dst.len())` panic. -/
def copyToSlice (bb : ByteBuffer) (n : Nat) : Option (List Nat × ByteBuffer) :=
  if bb.len < n then none
  else some (match bb with
    | single buf => (buf.take n, single (buf.drop n))
    | split a b =>
      if n ≤ a.length then (a.take n, split (a.drop n) b)
      else (a ++ b.take (n - a.length), single (b.drop (n - a.length))))

/-- `ParseBuf::chunk` for `ByteBuffer`: `Err(eof)` (here `none`) only on an
empty `Single`; a `Split` always yields its first span, as-is. -/
def chunkOp : ByteBuffer → Option (List Nat)
  | single [] => none
  | single c => some c
  | split a _ => some a

/-- `ParseBuf::advance` for `ByteBuffer`; `none` models the panic of slice
`advance` past the end. -/
def advance (bb : ByteBuffer) (count : Nat) : Option ByteBuffer :=
  match bb with
  | single c => if count ≤ c.length then some (single (c.drop count)) else none
  | split a b =>
    if count < a.length then some (split (a.drop count) b)
    else if count - a.length ≤ b.length then some (single (b.drop (count - a.length)))
    else none

end ByteBuffer

/-- Modelled from the spec: the `data::parse::Parser` driving `ParseBuf` is
not among the provided sources (only its `ByteBuffer` instance in
`sampler.rs` is).  Per spec §4.1–4.2 the field decoder reads `n` bytes by
repeatedly taking the current chunk and advancing past the bytes it used.
`fuel` only bounds the recursion; `none` is a failed read. -/
def readViaChunk : Nat → Nat → ByteBuffer → Option (List Nat × ByteBuffer)
  | 0, _, _ => none
  | _ + 1, 0, bb => some ([], bb)
  | fuel + 1, n + 1, bb =>
    match bb.chunkOp with
    | none => none
    | some c =>
      let k := min (n + 1) c.length
      match bb.advance k with
      | none => none
      | some bb' =>
        match readViaChunk fuel (n + 1 - k) bb' with
        | none => none
        | some (rest, bb'') => some (c.take k ++ rest, bb'')

/-- `perf_event_header`: `{ type: u32, misc: u16, size: u16 }`. -/
structure EventHeader where
  ty : Nat
  misc : Nat
  size : Nat
deriving DecidableEq, Repr

/-- `ByteBuffer::parse_header`: copy 8 bytes out (panic if fewer remain) and
transmute, i.e. decode the three little-endian fields in order. -/
def parse_header (bb : ByteBuffer) : Option (EventHeader × ByteBuffer) :=
  (bb.copyToSlice 8).map fun p =>
    (⟨leNat (p.1.take 4), leNat ((p.1.drop 4).take 2), leNat (p.1.drop 6)⟩, p.2)

/-! ## Record payload types and their decoders (`samples/*.rs`) -/

/-- `CounterValue` (`samples/mod.rs`). -/
structure CounterValue where
  value : Nat
  time_enabled : Option Nat
  time_running : Option Nat
  id : Option Nat
deriving DecidableEq, Repr

/-- `GroupValueEntry` (`samples/mod.rs`). -/
structure GroupValueEntry where
  value : Nat
  id : Option Nat
deriving DecidableEq, Repr

/-- `GroupValue` (`samples/mod.rs`). -/
structure GroupValue where
  time_enabled : Option Nat
  time_running : Option Nat
  values : List GroupValueEntry
deriving DecidableEq, Repr

/-- `ReadValue` (`samples/mod.rs`). -/
inductive ReadValue : Type
  | counter (c : CounterValue)
  | group (g : GroupValue)
deriving DecidableEq, Repr

/-- `impl Parse for CounterValue` (`samples/mod.rs` lines 650–671). -/
def CounterValue.parse (config : ParseConfig) : PM CounterValue := do
  let value ← getU64
  let time_enabled ← condParse (hasFlag config.read_format ReadFormat.TOTAL_TIME_ENABLED) getU64
  let time_running ← condParse (hasFlag config.read_format ReadFormat.TOTAL_TIME_RUNNING) getU64
  let id ← condParse (hasFlag config.read_format ReadFormat.ID) getU64
  pure { value, time_enabled, time_running, id }

/-- `impl Parse for GroupValueEntry` (`samples/mod.rs`). -/
def GroupValueEntry.parse (config : ParseConfig) : PM GroupValueEntry := do
  let value ← getU64
  let id ← condParse (hasFlag config.read_format ReadFormat.ID) getU64
  pure { value, id }

/-- `impl Parse for GroupValue` (`samples/mod.rs`). -/
def GroupValue.parse (config : ParseConfig) : PM GroupValue := do
  let len ← getU64
  let time_enabled ← condParse (hasFlag config.read_format ReadFormat.TOTAL_TIME_ENABLED) getU64
  let time_running ← condParse (hasFlag config.read_format ReadFormat.TOTAL_TIME_RUNNING) getU64
  let values ← replicatePM len (GroupValueEntry.parse config)
  pure { time_enabled, time_running, values }

/-- `impl Parse for ReadValue` (`samples/mod.rs` lines 711–722). -/
def ReadValue.parse (config : ParseConfig) : PM ReadValue :=
  if hasFlag config.read_format ReadFormat.GROUP then
    PM.bind (GroupValue.parse config) fun g => PM.pure (ReadValue.group g)
  else
    PM.bind (CounterValue.parse config) fun c => PM.pure (ReadValue.counter c)

/-- `Registers` (`samples/sample.rs`): ABI tag, effective mask, register
values. -/
structure Registers where
  abi : Nat
  mask : Nat
  regs : List Nat
deriving DecidableEq, Repr

/-- `Registers::parse_regs` (`samples/sample.rs` lines 511–531): read the
8-byte ABI tag; if it is `PERF_SAMPLE_REGS_ABI_NONE` the mask is forced to 0
(the kernel emits no registers in that case), then one `u64` per set mask
bit is read. -/
def Registers.parse_regs (mask : Nat) : PM Registers := do
  let abi ← getU64
  let mask := if abi == SampleRegsAbi.NONE then 0 else mask
  let regs ← replicatePM (countOnes64 mask) getU64
  pure { abi, mask, regs }

/-- `DataSource` (`samples/sample.rs`): a raw `u64` classification word. -/
structure DataSource where
  val : Nat
deriving DecidableEq, Repr

/-- `impl Parse for DataSource`. -/
def DataSource.parse (_ : ParseConfig) : PM DataSource :=
  PM.bind getU64 fun v => PM.pure ⟨v⟩

/-- `BranchEntry` wraps `perf_branch_entry`
(`{ from: u64, to: u64, flags bitfield: u64 }`); `parse_transmute` of its 24
bytes on a little-endian host decodes the three words in order. -/
structure BranchEntry where
  from_ : Nat
  to_ : Nat
  flagsWord : Nat
deriving DecidableEq, Repr

/-- `impl Parse for BranchEntry`. -/
def BranchEntry.parse (_ : ParseConfig) : PM BranchEntry := do
  let f ← getU64
  let t ← getU64
  let w ← getU64
  pure ⟨f, t, w⟩

/-- `Sample` (`samples/sample.rs`): all fields optional, plus the unparsed
trailing remainder `extra`.  `transaction` carries the raw `Txn` bits. -/
structure Sample where
  ip : Option Nat
  pid : Option Nat
  tid : Option Nat
  time : Option Nat
  addr : Option Nat
  id : Option Nat
  stream_id : Option Nat
  cpu : Option Nat
  period : Option Nat
  value : Option ReadValue
  callchain : Option (List Nat)
  raw : Option (List Nat)
  lbr_hw_index : Option Nat
  lbr : Option (List BranchEntry)
  regs_user : Option Registers
  stack_user : Option (List Nat)
  weight : Option Nat
  data_src : Option DataSource
  transaction : Option Nat
  regs_intr : Option Registers
  phys_addr : Option Nat
  cgroup : Option Nat
  data_page_size : Option Nat
  code_page_size : Option Nat
  aux : Option (List Nat)
  extra : List Nat
deriving DecidableEq, Repr

/-- The all-`none` `Sample` with a given remainder. -/
def Sample.empty (extra : List Nat) : Sample :=
  { ip := none, pid := none, tid := none, time := none, addr := none, id := none,
    stream_id := none, cpu := none, period := none, value := none, callchain := none,
    raw := none, lbr_hw_index := none, lbr := none, regs_user := none, stack_user := none,
    weight := none, data_src := none, transaction := none, regs_intr := none,
    phys_addr := none, cgroup := none, data_page_size := none, code_page_size := none,
    aux := none, extra }

/-- `impl Parse for Sample` (`samples/sample.rs` lines 556–675), field reads
in the kernel-mandated order. -/
def Sample.parse (config : ParseConfig) : PM Sample := do
  let sty := config.sample_type
  let sample_id ← condParse (hasFlag sty SampleType.IDENTIFIER) getU64
  let ip ← condParse (hasFlag sty SampleType.IP) getU64
  let pid ← condParse (hasFlag sty SampleType.TID) getU32
  let tid ← condParse (hasFlag sty SampleType.TID) getU32
  let time ← condParse (hasFlag sty SampleType.TIME) getU64
  let addr ← condParse (hasFlag sty SampleType.ADDR) getU64
  let id ← condParse (hasFlag sty SampleType.ID) getU64
  let stream_id ← condParse (hasFlag sty SampleType.STREAM_ID) getU64
  let cpu ← condParse (hasFlag sty SampleType.CPU) (do
    let cpu ← getU32
    let _ ← getU32
    pure cpu)
  let period ← condParse (hasFlag sty SampleType.PERIOD) getU64
  let value ← condParse (hasFlag sty SampleType.READ) (ReadValue.parse config)
  let callchain ← condParse (hasFlag sty SampleType.CALLCHAIN) (do
    let len ← getU64
    replicatePM len getU64)
  let raw ← condParse (hasFlag sty SampleType.RAW) (do
    let len ← getU64
    parse_vec len)
  let lbrPair ←
    if hasFlag sty SampleType.BRANCH_STACK then do
      let len ← getU64
      let hw_index ← condParse (hasFlag config.branch_sample_type BranchSampleType.HW_INDEX) getU64
      let lbr ← replicatePM len (BranchEntry.parse config)
      pure ((some lbr, hw_index) : Option (List BranchEntry) × Option Nat)
    else pure (none, none)
  let regs_user ← condParse (hasFlag sty SampleType.REGS_USER)
    (Registers.parse_regs config.regs_user)
  let stack_user ← condParse (hasFlag sty SampleType.STACK_USER) (do
    let len ← getU64
    let data ← parse_vec len
    if len != 0 then do
      let dyn_len ← getU64
      pure (data.take dyn_len)
    else pure data)
  let weight ← condParse
    (hasFlag sty SampleType.WEIGHT || hasFlag sty SampleType.WEIGHT_STRUCT) getU64
  let data_src ← condParse (hasFlag sty SampleType.DATA_SRC) (DataSource.parse config)
  let transaction ← condParse (hasFlag sty SampleType.TRANSACTION) getU64
  let regs_intr ← condParse (hasFlag sty SampleType.REGS_INTR)
    (Registers.parse_regs config.regs_intr)
  let phys_addr ← condParse (hasFlag sty SampleType.PHYS_ADDR) getU64
  let cgroup ← condParse (hasFlag sty SampleType.CGROUP) getU64
  let data_page_size ← condParse (hasFlag sty SampleType.DATA_PAGE_SIZE) getU64
  let code_page_size ← condParse (hasFlag sty SampleType.CODE_PAGE_SIZE) getU64
  let aux ← condParse (hasFlag sty SampleType.AUX) (do
    let len ← getU64
    parse_vec len)
  let extra ← parse_remainder
  pure { ip, pid, tid, time, addr, id := id.or sample_id, stream_id, cpu, period, value,
         callchain, raw, lbr := lbrPair.1, lbr_hw_index := lbrPair.2, regs_user, stack_user,
         weight, data_src, transaction, regs_intr, phys_addr, cgroup, data_page_size,
         code_page_size, aux, extra }

/-- `SampleId` (`samples/mod.rs`). -/
structure SampleId where
  pid : Option Nat
  tid : Option Nat
  time : Option Nat
  id : Option Nat
  stream_id : Option Nat
  cpu : Option Nat
deriving DecidableEq, Repr

/-- `SampleId::default()`. -/
def SampleId.default : SampleId :=
  { pid := none, tid := none, time := none, id := none, stream_id := none, cpu := none }

/-- `SampleId::expected_size` (`samples/mod.rs` lines 518–535). -/
def SampleId.expected_size (config : ParseConfig) : Nat :=
  if !config.sample_id_all then 0
  else
    ([hasFlag config.sample_type SampleType.TID,
      hasFlag config.sample_type SampleType.TIME,
      hasFlag config.sample_type SampleType.ID,
      hasFlag config.sample_type SampleType.STREAM_ID,
      hasFlag config.sample_type SampleType.CPU,
      hasFlag config.sample_type SampleType.IDENTIFIER].countP (fun x => x)) * 8

/-- `impl Parse for SampleId` (`samples/mod.rs` lines 613–648).  The source
assigns `sample.id` at the `ID` flag and again at the `IDENTIFIER` flag, so
the `IDENTIFIER` value wins when both are present. -/
def SampleId.parse (config : ParseConfig) : PM SampleId :=
  if !config.sample_id_all then PM.pure SampleId.default
  else do
    let pidtid ← condParse (hasFlag config.sample_type SampleType.TID) (do
      let pid ← getU32
      let tid ← getU32
      pure (pid, tid))
    let time ← condParse (hasFlag config.sample_type SampleType.TIME) getU64
    let id ← condParse (hasFlag config.sample_type SampleType.ID) getU64
    let stream_id ← condParse (hasFlag config.sample_type SampleType.STREAM_ID) getU64
    let cpu ← condParse (hasFlag config.sample_type SampleType.CPU) (do
      let cpu ← getU32
      let _ ← getU32
      pure cpu)
    let identifier ← condParse (hasFlag config.sample_type SampleType.IDENTIFIER) getU64
    pure { pid := pidtid.map Prod.fst, tid := pidtid.map Prod.snd, time,
           id := identifier.or id, stream_id, cpu }

/-- Modelled from the spec: `samples/mmap.rs` (the `PERF_RECORD_MMAP`
decoder) is not among the provided sources; `samples/mod.rs` declares
`mod mmap;` and uses `Mmap::parse`, `mmap.pid` and `mmap.tid`.  Per the spec
(§4.4: the memory-map-create trailer is synthesized from pid/tid in the
payload) and the `perf_event_open` manpage, the payload is
`{ pid: u32, tid: u32, addr: u64, len: u64, pgoff: u64, filename: char[] }`
with the trailing name NUL-stripped like the other name-carrying records. -/
structure Mmap where
  pid : Nat
  tid : Nat
  addr : Nat
  len : Nat
  pgoff : Nat
  filename : List Nat
deriving DecidableEq, Repr

/-- Modelled from the spec: see `Mmap`. -/
def Mmap.parse (_ : ParseConfig) : PM Mmap := do
  let pid ← getU32
  let tid ← getU32
  let addr ← getU64
  let len ← getU64
  let pgoff ← getU64
  let filename ← parse_remainder
  pure { pid, tid, addr, len, pgoff, filename := stripTrailingNuls filename }

/-- `Lost` (`samples/lost.rs`). -/
structure Lost where
  id : Nat
  lost : Nat
deriving DecidableEq, Repr

/-- `impl Parse for Lost`. -/
def Lost.parse (_ : ParseConfig) : PM Lost := do
  let id ← getU64
  let lost ← getU64
  pure { id, lost }

/-- `Comm` (`samples/comm.rs`); the name is kept as NUL-stripped bytes. -/
structure Comm where
  pid : Nat
  tid : Nat
  comm : List Nat
deriving DecidableEq, Repr

/-- `impl Parse for Comm`. -/
def Comm.parse (_ : ParseConfig) : PM Comm := do
  let pid ← getU32
  let tid ← getU32
  let comm ← parse_remainder
  pure { pid, tid, comm := stripTrailingNuls comm }

/-- `Exit` (`samples/exit.rs`). -/
structure Exit where
  pid : Nat
  ppid : Nat
  tid : Nat
  ptid : Nat
  time : Nat
deriving DecidableEq, Repr

/-- `impl Parse for Exit`. -/
def Exit.parse (_ : ParseConfig) : PM Exit := do
  let pid ← getU32
  let ppid ← getU32
  let tid ← getU32
  let ptid ← getU32
  let time ← getU64
  pure { pid, ppid, tid, ptid, time }

/-- `Fork` (`samples/fork.rs`). -/
structure Fork where
  pid : Nat
  ppid : Nat
  tid : Nat
  ptid : Nat
  time : Nat
deriving DecidableEq, Repr

/-- `impl Parse for Fork`. -/
def Fork.parse (_ : ParseConfig) : PM Fork := do
  let pid ← getU32
  let ppid ← getU32
  let tid ← getU32
  let ptid ← getU32
  let time ← getU64
  pure { pid, ppid, tid, ptid, time }

/-- `Throttle` (`samples/throttle.rs`). -/
structure Throttle where
  time : Nat
  id : Nat
  stream_id : Nat
deriving DecidableEq, Repr

/-- `impl Parse for Throttle`. -/
def Throttle.parse (_ : ParseConfig) : PM Throttle := do
  let time ← getU64
  let id ← getU64
  let stream_id ← getU64
  pure { time, id, stream_id }

/-- `Read` (`samples/read.rs`). -/
structure Read where
  pid : Nat
  tid : Nat
  values : ReadValue
deriving DecidableEq, Repr

/-- `impl Parse for Read`. -/
def Read.parse (config : ParseConfig) : PM Read := do
  let pid ← getU32
  let tid ← getU32
  let values ← ReadValue.parse config
  pure { pid, tid, values }

/-- `Mmap2` (`samples/mmap2.rs`). -/
structure Mmap2 where
  pid : Nat
  tid : Nat
  addr : Nat
  len : Nat
  pgoff : Nat
  maj : Nat
  min : Nat
  ino : Nat
  ino_generation : Nat
  prot : Nat
  flags : Nat
  filename : List Nat
deriving DecidableEq, Repr

/-- `impl Parse for Mmap2`. -/
def Mmap2.parse (_ : ParseConfig) : PM Mmap2 := do
  let pid ← getU32
  let tid ← getU32
  let addr ← getU64
  let len ← getU64
  let pgoff ← getU64
  let maj ← getU32
  let min ← getU32
  let ino ← getU64
  let ino_generation ← getU64
  let prot ← getU32
  let flags ← getU32
  let filename ← parse_remainder
  pure { pid, tid, addr, len, pgoff, maj, min, ino, ino_generation, prot, flags,
         filename := stripTrailingNuls filename }

/-- `Aux` (`samples/aux.rs`); `flags` carries the raw `AuxFlags` bits. -/
structure Aux where
  aux_offset : Nat
  aux_size : Nat
  flags : Nat
deriving DecidableEq, Repr

/-- `impl Parse for Aux`. -/
def Aux.parse (_ : ParseConfig) : PM Aux := do
  let aux_offset ← getU64
  let aux_size ← getU64
  let flags ← getU64
  pure { aux_offset, aux_size, flags }

/-- `ITraceStart` (`samples/itrace_start.rs`). -/
structure ITraceStart where
  pid : Nat
  tid : Nat
deriving DecidableEq, Repr

/-- `impl Parse for ITraceStart`. -/
def ITraceStart.parse (_ : ParseConfig) : PM ITraceStart := do
  let pid ← getU32
  let tid ← getU32
  pure { pid, tid }

/-- `LostSamples` (`samples/lost_samples.rs`). -/
structure LostSamples where
  lost : Nat
deriving DecidableEq, Repr

/-- `impl Parse for LostSamples`. -/
def LostSamples.parse (_ : ParseConfig) : PM LostSamples := do
  let lost ← getU64
  pure { lost }

/-- `SwitchCpuWide` (`samples/switch_cpu_wide.rs`). -/
inductive SwitchCpuWide : Type
  | switch_in (next_pid next_tid : Nat)
  | switch_out (prev_pid prev_tid : Nat)
deriving DecidableEq, Repr

/-- `SwitchCpuWide::parse`, dispatching on the `SWITCH_OUT` misc flag. -/
def SwitchCpuWide.parse (misc : Nat) : PM SwitchCpuWide := do
  let pid ← getU32
  let tid ← getU32
  if hasFlag misc MISC_SWITCH_OUT then pure (.switch_out pid tid)
  else pure (.switch_in pid tid)

/-- `NamespaceEntry` (`samples/namespaces.rs`). -/
structure NamespaceEntry where
  dev : Nat
  inode : Nat
deriving DecidableEq, Repr

/-- `impl Parse for NamespaceEntry`. -/
def NamespaceEntry.parse (_ : ParseConfig) : PM NamespaceEntry := do
  let dev ← getU64
  let inode ← getU64
  pure { dev, inode }

/-- `Namespaces` (`samples/namespaces.rs`). -/
structure Namespaces where
  pid : Nat
  tid : Nat
  namespaces : List NamespaceEntry
deriving DecidableEq, Repr

/-- `impl Parse for Namespaces`. -/
def Namespaces.parse (config : ParseConfig) : PM Namespaces := do
  let pid ← getU32
  let tid ← getU32
  let len ← getU64
  let namespaces ← replicatePM len (NamespaceEntry.parse config)
  pure { pid, tid, namespaces }

/-- `KSymbol` (`samples/ksymbol.rs`). -/
structure KSymbol where
  addr : Nat
  len : Nat
  ksym_type : Nat
  flags : Nat
  name : List Nat
deriving DecidableEq, Repr

/-- `impl Parse for KSymbol`. -/
def KSymbol.parse (_ : ParseConfig) : PM KSymbol := do
  let addr ← getU64
  let len ← getU32
  let ksym_type ← getU16
  let flags ← getU16
  let name ← parse_remainder
  pure { addr, len, ksym_type, flags, name := stripTrailingNuls name }

/-- `BpfEvent` (`samples/bpf_event.rs`). -/
structure BpfEvent where
  ty : Nat
  flags : Nat
  id : Nat
  tag : List Nat
deriving DecidableEq, Repr

/-- `impl Parse for BpfEvent`. -/
def BpfEvent.parse (_ : ParseConfig) : PM BpfEvent := do
  let ty ← getU16
  let flags ← getU16
  let id ← getU32
  let tag ← parse_bytes 8
  pure { ty, flags, id, tag }

/-- `Cgroup` (`samples/cgroup.rs`). -/
structure Cgroup where
  id : Nat
  path : List Nat
deriving DecidableEq, Repr

/-- `impl Parse for Cgroup`. -/
def Cgroup.parse (_ : ParseConfig) : PM Cgroup := do
  let id ← getU64
  let path ← parse_remainder
  pure { id, path := stripTrailingNuls path }

/-- `TextPoke` (`samples/text_poke.rs`). -/
structure TextPoke where
  addr : Nat
  old_bytes : List Nat
  new_bytes : List Nat
deriving DecidableEq, Repr

/-- `impl Parse for TextPoke`. -/
def TextPoke.parse (_ : ParseConfig) : PM TextPoke := do
  let addr ← getU64
  let old_len ← getU16
  let new_len ← getU16
  let old_bytes ← parse_vec old_len
  let new_bytes ← parse_vec new_len
  pure { addr, old_bytes, new_bytes }

/-- `RecordEvent` (`samples/mod.rs`). -/
inductive RecordEvent : Type
  | mmap (m : Mmap)
  | lost (l : Lost)
  | comm (c : Comm)
  | exit (e : Exit)
  | fork (f : Fork)
  | throttle (t : Throttle)
  | unthrottle (t : Throttle)
  | read (r : Read)
  | sample (s : Sample)
  | mmap2 (m : Mmap2)
  | aux (a : Aux)
  | itrace_start (i : ITraceStart)
  | lost_samples (l : LostSamples)
  | switch
  | switch_cpu_wide (s : SwitchCpuWide)
  | namespaces (n : Namespaces)
  | ksymbol (k : KSymbol)
  | bpf_event (b : BpfEvent)
  | cgroup (c : Cgroup)
  | text_poke (t : TextPoke)
  | unknown (bytes : List Nat)
deriving DecidableEq, Repr

/-- Run a kind-specific decoder on the size-limited buffer, discarding any
bytes it leaves behind (the `limited.advance(limited.remaining())` step of
`Record::parse`). -/
def runEvent {α : Type} (p : PM α) (k : α → RecordEvent) (bytes : List Nat) :
    POr RecordEvent :=
  match p bytes with
  | .panics => .panics
  | .ok (a, _) => .ok (k a)

/-- The event-dispatch `match` inside `Record::parse` (`samples/mod.rs`
lines 457–483); unrecognized type tags decode to `unknown` holding the whole
limited buffer (`parse_remainder`). -/
def parseEvent (config : ParseConfig) (misc : Nat) (ty : Nat) (bytes : List Nat) :
    POr RecordEvent :=
  if ty = RecordType.MMAP then runEvent (Mmap.parse config) .mmap bytes
  else if ty = RecordType.LOST then runEvent (Lost.parse config) .lost bytes
  else if ty = RecordType.COMM then runEvent (Comm.parse config) .comm bytes
  else if ty = RecordType.EXIT then runEvent (Exit.parse config) .exit bytes
  else if ty = RecordType.THROTTLE then runEvent (Throttle.parse config) .throttle bytes
  else if ty = RecordType.UNTHROTTLE then runEvent (Throttle.parse config) .unthrottle bytes
  else if ty = RecordType.FORK then runEvent (Fork.parse config) .fork bytes
  else if ty = RecordType.READ then runEvent (Read.parse config) .read bytes
  else if ty = RecordType.SAMPLE then runEvent (Sample.parse config) .sample bytes
  else if ty = RecordType.MMAP2 then runEvent (Mmap2.parse config) .mmap2 bytes
  else if ty = RecordType.AUX then runEvent (Aux.parse config) .aux bytes
  else if ty = RecordType.ITRACE_START then runEvent (ITraceStart.parse config) .itrace_start bytes
  else if ty = RecordType.LOST_SAMPLES then runEvent (LostSamples.parse config) .lost_samples bytes
  else if ty = RecordType.SWITCH then .ok .switch
  else if ty = RecordType.SWITCH_CPU_WIDE then
    runEvent (SwitchCpuWide.parse misc) .switch_cpu_wide bytes
  else if ty = RecordType.NAMESPACES then runEvent (Namespaces.parse config) .namespaces bytes
  else if ty = RecordType.KSYMBOL then runEvent (KSymbol.parse config) .ksymbol bytes
  else if ty = RecordType.BPF_EVENT then runEvent (BpfEvent.parse config) .bpf_event bytes
  else if ty = RecordType.CGROUP then runEvent (Cgroup.parse config) .cgroup bytes
  else if ty = RecordType.TEXT_POKE then runEvent (TextPoke.parse config) .text_poke bytes
  else .ok (.unknown bytes)

/-- `Record` (`samples/mod.rs`). -/
structure Record where
  ty : Nat
  misc : Nat
  event : RecordEvent
  sample_id : SampleId
deriving DecidableEq, Repr

/-- `Record::parse` (`samples/mod.rs` lines 444–516).  `MMAP` and `SAMPLE`
records reserve no trailer; all other tags reserve
`SampleId::expected_size(config)` trailing bytes.
`buf.remaining() - sample_id_len.unwrap_or(0)` is `usize` subtraction, so a
buffer shorter than the reserved trailer is modelled as a panic. -/
def Record.parse (config : ParseConfig) (header : EventHeader) (buf : List Nat) :
    POr Record :=
  let ty := header.ty
  let sample_id_len : Option Nat :=
    if ty = RecordType.MMAP ∨ ty = RecordType.SAMPLE then none
    else some (SampleId.expected_size config)
  if buf.length < sample_id_len.getD 0 then .panics
  else
    let limited := buf.take (buf.length - sample_id_len.getD 0)
    let trailer := buf.drop (buf.length - sample_id_len.getD 0)
    match parseEvent config header.misc ty limited with
    | .panics => .panics
    | .ok event =>
      let sid : POr SampleId :=
        match sample_id_len with
        | some _ =>
          match SampleId.parse config trailer with
          | .panics => .panics
          | .ok (s, _) => .ok s
        | none =>
          .ok (match event with
            | .mmap m => { SampleId.default with pid := some m.pid, tid := some m.tid }
            | .sample s =>
              { pid := s.pid, tid := s.tid, time := s.time, id := s.id,
                stream_id := s.stream_id, cpu := s.cpu }
            | _ => SampleId.default)
      match sid with
      | .panics => .panics
      | .ok sample_id => .ok { ty, misc := header.misc, event, sample_id }

/-- The header-handling steps of `Sampler::next_record` (`sampler.rs`
lines 143–146): parse the header, `assert!(header.size >= 8)`, then truncate
the buffer to `header.size - 8` payload bytes.  `POr.panics` models the
assertion failure (protocol-fatal) and the panics of the two buffer ops. -/
def nextRecordView (bb : ByteBuffer) : POr (EventHeader × ByteBuffer) :=
  match parse_header bb with
  | none => .panics
  | some (hdr, rest) =>
    if hdr.size < 8 then .panics
    else match rest.truncate (hdr.size - 8) with
      | none => .panics
      | some data => .ok (hdr, data)

/-! ## Ring-buffer cursor model (`Sampler::next_record`, `Record::drop`) -/

/-- Cursor state of the mmapped ring-buffer page: the kernel-owned write
cursor `head` and consumer-owned read cursor `tail` (`u64` values, held here
as the Nats they denote) plus the fixed data-region size `size`. -/
structure RingState where
  head : Nat
  tail : Nat
  size : Nat
deriving DecidableEq, Repr

/-- The physical byte window computed by `Sampler::next_record`
(`sampler.rs` lines 112–141), as `(offset, length)` spans into the data
region: `none` when `tail == head`; one span `[mod_tail, mod_head)` when
`mod_head > mod_tail`; otherwise the wrapped pair of spans
`[mod_tail, size)` and `[0, mod_head)`. -/
def nextWindowSpans (st : RingState) : Option (List (Nat × Nat)) :=
  if st.tail = st.head then none
  else
    let mod_tail := st.tail % st.size
    let mod_head := st.head % st.size
    if mod_tail < mod_head then some [(mod_tail, mod_head - mod_tail)]
    else some [(mod_tail, st.size - mod_tail), (0, mod_head)]

/-- Physical offsets covered by a span list, in span order. -/
def spanOffsets (spans : List (Nat × Nat)) : List Nat :=
  (spans.map fun s => (List.range s.2).map (s.1 + ·)).flatten

/-- `Record::drop` (`sampler.rs` lines 635–660): the single mutation point of
the read cursor — a `u64` add of the record's declared total length
(`header.size`), performed once when the record is dropped. -/
def releaseRecord (st : RingState) (header_size : Nat) : RingState :=
  { st with tail := (st.tail + header_size) % 2 ^ 64 }

/-! ## Lemmas about the parser monad and the byte primitives -/

@[simp] theorem PM.bind_eq {α β : Type} (p : PM α) (f : α → PM β) :
    p >>= f = PM.bind p f := rfl

@[simp] theorem PM.pure_eq {α : Type} (a : α) : (pure a : PM α) = PM.pure a := rfl

@[simp] theorem PM.pure_bind {α β : Type} (a : α) (f : α → PM β) :
    PM.bind (PM.pure a) f = f a := rfl

@[simp] theorem PM.run_pure {α : Type} (a : α) (buf : List Nat) :
    PM.pure a buf = .ok (a, buf) := rfl

@[simp] theorem PM.run_bind {α β : Type} (p : PM α) (f : α → PM β) (buf : List Nat) :
    PM.bind p f buf =
      match p buf with
      | .panics => .panics
      | .ok (a, r) => f a r := rfl

@[simp] theorem condParse_false {α : Type} (p : PM α) :
    condParse false p = PM.pure none := rfl

@[simp] theorem condParse_true {α : Type} (p : PM α) :
    condParse true p = PM.bind p fun a => PM.pure (some a) := rfl

@[simp] theorem parse_remainder_run (buf : List Nat) :
    parse_remainder buf = .ok (buf, []) := rfl

theorem getBytes_append {n : Nat} {b : List Nat} (r : List Nat) (h : b.length = n) :
    getBytes n (b ++ r) = .ok (b, r) := by
  subst h
  simp [getBytes, List.take_left, List.drop_left]

theorem getU64_append {b : List Nat} (r : List Nat) (h : b.length = 8) :
    getU64 (b ++ r) = .ok (leNat b, r) := by
  simp [getU64, getBytes_append r h]

theorem getU32_append {b : List Nat} (r : List Nat) (h : b.length = 4) :
    getU32 (b ++ r) = .ok (leNat b, r) := by
  simp [getU32, getBytes_append r h]

theorem getBytes_split (n : Nat) (buf : List Nat) (h : n ≤ buf.length) :
    getBytes n buf = .ok (buf.take n, buf.drop n) := by
  simp [getBytes, h]

theorem getU64_split (buf : List Nat) (h : 8 ≤ buf.length) :
    getU64 buf = .ok (leNat (buf.take 8), buf.drop 8) := by
  simp [getU64, getBytes_split 8 buf h]

theorem getU32_split (buf : List Nat) (h : 4 ≤ buf.length) :
    getU32 buf = .ok (leNat (buf.take 4), buf.drop 4) := by
  simp [getU32, getBytes_split 4 buf h]

/-- `p` consumes exactly `k` bytes whenever at least `k` are available. -/
def Consumes {α : Type} (p : PM α) (k : Nat) : Prop :=
  ∀ buf : List Nat, k ≤ buf.length → ∃ a, p buf = .ok (a, buf.drop k)

theorem consumes_pure {α : Type} (a : α) : Consumes (PM.pure a) 0 := by
  intro buf _
  exact ⟨a, rfl⟩

theorem consumes_getBytes (n : Nat) : Consumes (getBytes n) n := by
  intro buf h
  exact ⟨buf.take n, getBytes_split n buf h⟩

theorem consumes_getU64 : Consumes getU64 8 := by
  intro buf h
  exact ⟨leNat (buf.take 8), getU64_split buf h⟩

theorem consumes_getU32 : Consumes getU32 4 := by
  intro buf h
  exact ⟨leNat (buf.take 4), getU32_split buf h⟩

theorem consumes_bind {α β : Type} {p : PM α} {f : α → PM β} {k k' : Nat}
    (hp : Consumes p k) (hf : ∀ a, Consumes (f a) k') :
    Consumes (PM.bind p f) (k + k') := by
  intro buf h
  obtain ⟨a, ha⟩ := hp buf (le_trans (Nat.le_add_right k k') h)
  obtain ⟨b, hb⟩ := hf a (buf.drop k) (by simp [List.length_drop]; omega)
  refine ⟨b, ?_⟩
  simp [PM.run_bind, ha, hb, List.drop_drop, Nat.add_comm]

theorem consumes_condParse {α : Type} {p : PM α} {k : Nat} (c : Bool)
    (hp : Consumes p k) :
    Consumes (condParse c p) (if c then k else 0) := by
  cases c with
  | false => simpa using consumes_pure (none : Option α)
  | true =>
    simp only [condParse_true, if_true]
    have := consumes_bind hp (fun a => consumes_pure (some a))
    simpa using this

theorem consumes_replicate_getU64 (n : Nat) (buf : List Nat) (h : 8 * n ≤ buf.length) :
    ∃ vals : List Nat, replicatePM n getU64 buf = .ok (vals, buf.drop (8 * n)) ∧
      vals.length = n := by
  induction n generalizing buf with
  | zero => exact ⟨[], by simp [replicatePM], rfl⟩
  | succ m ih =>
    have h8 : 8 ≤ buf.length := by omega
    obtain ⟨vals, hv, hl⟩ := ih (buf.drop 8) (by simp [List.length_drop]; omega)
    refine ⟨leNat (buf.take 8) :: vals, ?_, by simp [hl]⟩
    simp [replicatePM, getU64_split buf h8, hv, List.drop_drop]
    congr 1
    omega

/-! ### Sanity checks: the crate's own unit tests, replayed on the model -/

/-- `samples/comm.rs` `test_parse`. -/
theorem sanity_comm_parse :
    Comm.parse ⟨0, 0, false, 0, 0, 0⟩
      [0x10, 0x10, 0x00, 0x00, 0x00, 0x05, 0x00, 0x00,
       0x74, 0x65, 0x73, 0x74, 0x00, 0x00, 0x00, 0x00] =
      .ok ({ pid := 0x1010, tid := 0x0500, comm := [0x74, 0x65, 0x73, 0x74] }, []) := by
  decide

/-- `samples/throttle.rs` `test_parse`. -/
theorem sanity_throttle_parse :
    Throttle.parse ⟨0, 0, false, 0, 0, 0⟩
      [0x10, 0x20, 0x30, 0x40, 0x50, 0x60, 0x70, 0x80,
       0x90, 0xA0, 0xB0, 0xC0, 0xD0, 0xE0, 0xF0, 0x00,
       0xEF, 0xBE, 0xAD, 0xDE, 0xFE, 0xCA, 0xEF, 0xBE] =
      .ok ({ time := 0x8070605040302010, id := 0x00F0E0D0C0B0A090,
             stream_id := 0xBEEFCAFEDEADBEEF }, []) := by
  decide

/-- `sampler.rs` `buf_copy_over_split`: a two-span cursor `["aaaaaa","bbbbb"]`
copying 7 bytes yields `"aaaaaab"` and leaves 4 bytes. -/
theorem sanity_buf_copy_over_split :
    (ByteBuffer.split [97, 97, 97, 97, 97, 97] [98, 98, 98, 98, 98]).copyToSlice 7 =
      some ([97, 97, 97, 97, 97, 97, 98], .single [98, 98, 98, 98]) := by
  decide

/-- `sampler.rs` `buf_truncate_before_split`. -/
theorem sanity_buf_truncate_before_split :
    (ByteBuffer.split [49, 50, 51, 52, 53, 54, 55, 56, 57, 48] [97, 98, 99]).truncate 5 =
      some (.single [49, 50, 51, 52, 53]) := by
  decide

/-! ### Observable behaviour of the `ByteBuffer` operations -/

namespace ByteBuffer

theorem len_toBytes (bb : ByteBuffer) : bb.len = bb.toBytes.length := by
  cases bb <;> simp [len, toBytes]

/-- `truncate` keeps exactly the first `new_len` denoted bytes (and panics
exactly when `new_len` exceeds the length). -/
theorem truncate_obs (bb : ByteBuffer) (n : Nat) :
    (bb.truncate n).map toBytes =
      if n ≤ bb.toBytes.length then some (bb.toBytes.take n) else none := by
  cases bb with
  | single buf => simp [truncate, len, toBytes]
  | split a b =>
    simp only [truncate, len, toBytes, List.length_append]
    by_cases h : n ≤ a.length + b.length
    · simp only [if_pos h]
      by_cases h' : n ≤ a.length
      · simp [h', toBytes, List.take_append_of_le_length h']
      · simp [h', toBytes, List.take_append_eq_append_take,
          List.take_all_of_le (le_of_not_le h')]
    · simp [if_neg h]

/-- `copy_to_slice` hands out exactly the first `n` denoted bytes and leaves
exactly the rest (panicking exactly when fewer than `n` remain). -/
theorem copy_obs (bb : ByteBuffer) (n : Nat) :
    (bb.copyToSlice n).map (fun p => (p.1, p.2.toBytes)) =
      if n ≤ bb.toBytes.length then some (bb.toBytes.take n, bb.toBytes.drop n)
      else none := by
  cases bb with
  | single buf =>
    simp only [copyToSlice, len, toBytes]
    by_cases h : n ≤ buf.length
    · simp [Nat.not_lt_of_le h, h]
    · simp [Nat.lt_of_not_le h, h]
  | split a b =>
    simp only [copyToSlice, len, toBytes, List.length_append]
    by_cases h : n ≤ a.length + b.length
    · simp only [Nat.not_lt_of_le h, if_false, if_pos h]
      by_cases h' : n ≤ a.length
      · simp [h', toBytes, List.take_append_of_le_length h',
          List.drop_append_eq_append_drop, Nat.sub_eq_zero_of_le h']
      · simp [h', toBytes, List.take_append_eq_append_take,
          List.take_all_of_le (le_of_not_le h'), List.drop_append_eq_append_drop,
          List.drop_eq_nil_of_le (le_of_not_le h')]
    · simp [Nat.lt_of_not_le h, if_neg h]

/-- `advance` discards exactly the first `n` denoted bytes (panicking exactly
when fewer than `n` remain). -/
theorem advance_obs (bb : ByteBuffer) (n : Nat) :
    (bb.advance n).map toBytes =
      if n ≤ bb.toBytes.length then some (bb.toBytes.drop n) else none := by
  cases bb with
  | single buf => simp [advance, toBytes]
  | split a b =>
    simp only [advance, toBytes, List.length_append]
    by_cases h' : n < a.length
    · simp [h', toBytes, List.drop_append_eq_append_drop,
        Nat.sub_eq_zero_of_le (le_of_lt h'), le_of_lt (by omega : n < a.length + b.length)]
    · have ha : a.length ≤ n := le_of_not_lt h'
      simp only [if_neg h']
      by_cases h : n - a.length ≤ b.length
      · simp [h, toBytes, List.drop_append_eq_append_drop,
          List.drop_eq_nil_of_le ha, (by omega : n ≤ a.length + b.length)]
      · rw [if_neg h, if_neg (by omega : ¬ n ≤ a.length + b.length)]
        rfl

end ByteBuffer

theorem readViaChunk_zero (fuel : Nat) (bb : ByteBuffer) (h : 1 ≤ fuel) :
    readViaChunk fuel 0 bb = some ([], bb) := by
  match fuel, h with
  | f + 1, _ => simp [readViaChunk]

/-- One unfolding step of `readViaChunk`. -/
theorem readViaChunk_succ (f n : Nat) (bb : ByteBuffer) :
    readViaChunk (f + 1) (n + 1) bb =
      match bb.chunkOp with
      | none => none
      | some c =>
        match bb.advance (min (n + 1) c.length) with
        | none => none
        | some bb' =>
          match readViaChunk f (n + 1 - min (n + 1) c.length) bb' with
          | none => none
          | some (rest, bb'') =>
            some (c.take (min (n + 1) c.length) ++ rest, bb'') := rfl

/-- Reading from a `Single` cursor via chunk/advance yields exactly the first
`n` bytes whenever the fuel exceeds `n`. -/
theorem readViaChunk_single (fuel : Nat) :
    ∀ (n : Nat) (c : List Nat), n + 1 ≤ fuel →
      (readViaChunk fuel n (.single c)).map (fun p => (p.1, p.2.toBytes)) =
        if n ≤ c.length then some (c.take n, c.drop n) else none := by
  induction fuel with
  | zero => intro n c h; omega
  | succ f ih =>
    intro n c h
    match n with
    | 0 => simp [readViaChunk_zero (f + 1) _ (by omega), ByteBuffer.toBytes]
    | n + 1 =>
      match c with
      | [] => simp [readViaChunk, ByteBuffer.chunkOp]
      | x :: xs =>
        have hchunk : (ByteBuffer.single (x :: xs)).chunkOp = some (x :: xs) := rfl
        have hk : min (n + 1) (x :: xs).length ≤ (x :: xs).length := Nat.min_le_right _ _
        have hadv : (ByteBuffer.single (x :: xs)).advance (min (n + 1) (x :: xs).length) =
            some (.single ((x :: xs).drop (min (n + 1) (x :: xs).length))) := by
          simp [ByteBuffer.advance, hk]
        rw [readViaChunk_succ]
        by_cases hc : n + 1 ≤ (x :: xs).length
        · have hmin : min (n + 1) (x :: xs).length = n + 1 := Nat.min_eq_left hc
          have hadv' := hadv
          rw [hmin] at hadv'
          simp only [hchunk, hmin, hadv', Nat.sub_self,
            readViaChunk_zero f _ (by omega : 1 ≤ f)]
          simp only [List.length_cons] at hc
          simp [ByteBuffer.toBytes, show n ≤ xs.length from by omega]
        · have hmin : min (n + 1) (x :: xs).length = (x :: xs).length :=
            Nat.min_eq_right (by omega)
          have hadv' := hadv
          rw [hmin, List.drop_length] at hadv'
          have hxlt : xs.length < n := by
            simp only [List.length_cons] at hc
            omega
          have hrec := ih (n - xs.length) [] (by omega)
          rw [if_neg (by simp only [List.length_nil]; omega)] at hrec
          have hval : readViaChunk f (n - xs.length) (.single []) = none := by
            rcases hv : readViaChunk f (n - xs.length) (.single []) with _ | p
            · rfl
            · rw [hv] at hrec
              simp at hrec
          simp only [hchunk, hmin, hadv']
          rw [if_neg hc]
          simp only [List.length_cons, Nat.succ_sub_succ]
          rw [hval]
          rfl

/-- Reading `n` bytes via chunk/advance yields exactly the first `n` denoted
bytes of any cursor — single or split, at any split point — given fuel
`n + 2` (one step may be spent collapsing an empty leading span). -/
theorem readViaChunk_obs (fuel n : Nat) (bb : ByteBuffer) (h : n + 2 ≤ fuel) :
    (readViaChunk fuel n bb).map (fun p => (p.1, p.2.toBytes)) =
      if n ≤ bb.toBytes.length then some (bb.toBytes.take n, bb.toBytes.drop n)
      else none := by
  cases bb with
  | single c =>
    simpa [ByteBuffer.toBytes] using readViaChunk_single fuel n c (by omega)
  | split a b =>
    match n with
    | 0 =>
      rw [readViaChunk_zero fuel _ (by omega)]
      simp [ByteBuffer.toBytes]
    | n + 1 =>
      obtain ⟨f, rfl⟩ : ∃ f, fuel = f + 1 := ⟨fuel - 1, by omega⟩
      rw [readViaChunk_succ]
      have hchunk : (ByteBuffer.split a b).chunkOp = some a := rfl
      by_cases hc : n + 1 ≤ a.length
      · have hmin : min (n + 1) a.length = n + 1 := Nat.min_eq_left hc
        by_cases hlt : n + 1 < a.length
        · have hadv : (ByteBuffer.split a b).advance (n + 1) =
              some (.split (a.drop (n + 1)) b) := by
            simp [ByteBuffer.advance, hlt]
          simp only [hchunk, hmin, hadv, Nat.sub_self,
            readViaChunk_zero f _ (by omega : 1 ≤ f)]
          simp only [ByteBuffer.toBytes, List.length_append]
          rw [if_pos (by omega)]
          simp [ByteBuffer.toBytes, List.take_append_of_le_length hc,
            List.drop_append_eq_append_drop, Nat.sub_eq_zero_of_le hc]
        · have heq : n + 1 = a.length := by omega
          have hadv : (ByteBuffer.split a b).advance (n + 1) =
              some (.single b) := by
            simp [ByteBuffer.advance, heq]
          simp only [hchunk, hmin, hadv, Nat.sub_self,
            readViaChunk_zero f _ (by omega : 1 ≤ f)]
          simp only [ByteBuffer.toBytes, List.length_append]
          rw [if_pos (by omega)]
          simp [ByteBuffer.toBytes, List.take_append_of_le_length hc,
            List.drop_append_eq_append_drop, Nat.sub_eq_zero_of_le hc, heq]
      · have hmin : min (n + 1) a.length = a.length := Nat.min_eq_right (by omega)
        have hadv : (ByteBuffer.split a b).advance a.length = some (.single b) := by
          simp [ByteBuffer.advance]
        have hrec := readViaChunk_single f (n + 1 - a.length) b (by omega)
        simp only [hchunk, hmin, hadv]
        rcases hv : readViaChunk f (n + 1 - a.length) (.single b) with _ | ⟨rest, bb2⟩
        · rw [hv] at hrec
          simp only [Option.map_none'] at hrec
          have hbl : ¬ (n + 1 - a.length ≤ b.length) := by
            by_contra hcon
            rw [if_pos hcon] at hrec
            exact Option.noConfusion hrec
          simp only [ByteBuffer.toBytes, List.length_append]
          rw [if_neg (by omega)]
          rfl
        · rw [hv] at hrec
          by_cases hbl : n + 1 - a.length ≤ b.length
          · rw [if_pos hbl] at hrec
            simp only [Option.map_some', Option.some.injEq, Prod.mk.injEq] at hrec
            obtain ⟨hp1, hp2⟩ := hrec
            simp only [ByteBuffer.toBytes] at hp2
            simp only [ByteBuffer.toBytes, List.length_append]
            rw [if_pos (by omega)]
            simp [hp1, hp2, List.take_append_eq_append_take,
              List.drop_append_eq_append_drop,
              List.take_all_of_le (show a.length ≤ n + 1 by omega),
              List.drop_eq_nil_of_le (show a.length ≤ n + 1 by omega)]
          · rw [if_neg hbl] at hrec
            simp at hrec

/-- C1: for every byte sequence `s` and split point `k` (`0 ≤ k ≤ length`),
the two-span buffer `Split [s.take k, s.drop k]` and the contiguous buffer
`Single s` are observationally equivalent: `len` agrees, and `truncate`,
`copy_to_slice`, `advance` and chunk/advance-driven reading succeed/panic
together and produce identical bytes, so decoding a record through either
buffer yields the same field values. -/
theorem spec_c1_split_cursor_equivalence (s : List Nat) (k : Nat) (_hk : k ≤ s.length) :
    (ByteBuffer.split (s.take k) (s.drop k)).len = (ByteBuffer.single s).len
    ∧ (∀ n, ((ByteBuffer.split (s.take k) (s.drop k)).truncate n).map ByteBuffer.toBytes =
        ((ByteBuffer.single s).truncate n).map ByteBuffer.toBytes)
    ∧ (∀ n, ((ByteBuffer.split (s.take k) (s.drop k)).copyToSlice n).map
          (fun p => (p.1, p.2.toBytes)) =
        ((ByteBuffer.single s).copyToSlice n).map (fun p => (p.1, p.2.toBytes)))
    ∧ (∀ n, ((ByteBuffer.split (s.take k) (s.drop k)).advance n).map ByteBuffer.toBytes =
        ((ByteBuffer.single s).advance n).map ByteBuffer.toBytes)
    ∧ (∀ n fuel, n + 2 ≤ fuel →
        (readViaChunk fuel n (.split (s.take k) (s.drop k))).map
            (fun p => (p.1, p.2.toBytes)) =
          (readViaChunk fuel n (.single s)).map (fun p => (p.1, p.2.toBytes))) := by
  have hbytes : (ByteBuffer.split (s.take k) (s.drop k)).toBytes =
      (ByteBuffer.single s).toBytes := by
    simp [ByteBuffer.toBytes]
  refine ⟨?_, ?_, ?_, ?_, ?_⟩
  · rw [ByteBuffer.len_toBytes, ByteBuffer.len_toBytes, hbytes]
  · intro n
    rw [ByteBuffer.truncate_obs, ByteBuffer.truncate_obs, hbytes]
  · intro n
    rw [ByteBuffer.copy_obs, ByteBuffer.copy_obs, hbytes]
  · intro n
    rw [ByteBuffer.advance_obs, ByteBuffer.advance_obs, hbytes]
  · intro n fuel hf
    rw [readViaChunk_obs fuel n _ hf, readViaChunk_obs fuel n _ hf, hbytes]

theorem spec_c1_split_cursor_equivalence_witness :
    1 ≤ ([10, 20, 30] : List Nat).length ∧
    ((ByteBuffer.split (([10, 20, 30] : List Nat).take 1) (([10, 20, 30] : List Nat).drop 1)).len =
        (ByteBuffer.single [10, 20, 30]).len
      ∧ (∀ n, ((ByteBuffer.split (([10, 20, 30] : List Nat).take 1)
            (([10, 20, 30] : List Nat).drop 1)).truncate n).map ByteBuffer.toBytes =
          ((ByteBuffer.single [10, 20, 30]).truncate n).map ByteBuffer.toBytes)
      ∧ (∀ n, ((ByteBuffer.split (([10, 20, 30] : List Nat).take 1)
            (([10, 20, 30] : List Nat).drop 1)).copyToSlice n).map
              (fun p => (p.1, p.2.toBytes)) =
          ((ByteBuffer.single [10, 20, 30]).copyToSlice n).map (fun p => (p.1, p.2.toBytes)))
      ∧ (∀ n, ((ByteBuffer.split (([10, 20, 30] : List Nat).take 1)
            (([10, 20, 30] : List Nat).drop 1)).advance n).map ByteBuffer.toBytes =
          ((ByteBuffer.single [10, 20, 30]).advance n).map ByteBuffer.toBytes)
      ∧ (∀ n fuel, n + 2 ≤ fuel →
          (readViaChunk fuel n (.split (([10, 20, 30] : List Nat).take 1)
              (([10, 20, 30] : List Nat).drop 1))).map (fun p => (p.1, p.2.toBytes)) =
            (readViaChunk fuel n (.single [10, 20, 30])).map (fun p => (p.1, p.2.toBytes)))) :=
  ⟨by decide, spec_c1_split_cursor_equivalence [10, 20, 30] 1 (by decide)⟩

/-- C8: every record header decoded by `next_record` is checked to satisfy
`header.size ≥ size_of::<perf_event_header>() = 8`; a violation is
protocol-fatal (the `assert!` panics), and when the kernel-written header
satisfies the invariant (and the window covers the whole record) the failure
branch is unreachable and the record view holds exactly `header.size - 8`
payload bytes. -/
theorem spec_c8_header_size_invariant (bb : ByteBuffer) (h8 : 8 ≤ bb.len) :
    (leNat ((bb.toBytes.drop 6).take 2) < 8 → nextRecordView bb = .panics)
    ∧ (8 ≤ leNat ((bb.toBytes.drop 6).take 2) →
        leNat ((bb.toBytes.drop 6).take 2) ≤ bb.len →
        ∃ data : ByteBuffer,
          nextRecordView bb =
            .ok (⟨leNat (bb.toBytes.take 4), leNat ((bb.toBytes.drop 4).take 2),
                  leNat ((bb.toBytes.drop 6).take 2)⟩, data)
          ∧ data.len = leNat ((bb.toBytes.drop 6).take 2) - 8
          ∧ data.toBytes =
              (bb.toBytes.drop 8).take (leNat ((bb.toBytes.drop 6).take 2) - 8)) := by
  have hlen := bb.len_toBytes
  have hcopy := bb.copy_obs 8
  rw [if_pos (by omega)] at hcopy
  obtain ⟨⟨c, bb1⟩, hc, hobs⟩ := Option.map_eq_some'.mp hcopy
  simp only [Prod.mk.injEq] at hobs
  obtain ⟨hc1, hb1⟩ := hobs
  subst hc1
  have hhdr : parse_header bb =
      some (⟨leNat (bb.toBytes.take 4), leNat ((bb.toBytes.drop 4).take 2),
             leNat ((bb.toBytes.drop 6).take 2)⟩, bb1) := by
    simp only [parse_header, hc, Option.map_some', List.drop_take, List.take_take]
    norm_num
  constructor
  · intro hviol
    simp only [nextRecordView, hhdr]
    rw [if_pos hviol]
  · intro hge hle
    simp only [nextRecordView, hhdr]
    rw [if_neg (by omega)]
    have htr := bb1.truncate_obs (leNat ((bb.toBytes.drop 6).take 2) - 8)
    rw [hb1] at htr
    rw [if_pos (by simp [List.length_drop]; omega)] at htr
    obtain ⟨data, hdata, hdbytes⟩ := Option.map_eq_some'.mp htr
    refine ⟨data, ?_, ?_, hdbytes⟩
    · rw [hdata]
    · rw [data.len_toBytes, hdbytes]
      simp [List.length_take, List.length_drop]
      omega

theorem spec_c8_header_size_invariant_witness :
    (8 : Nat) ≤ (ByteBuffer.single [9, 0, 0, 0, 0, 0, 12, 0, 1, 2, 3, 4]).len ∧
    ∃ data : ByteBuffer,
      nextRecordView (ByteBuffer.single [9, 0, 0, 0, 0, 0, 12, 0, 1, 2, 3, 4]) =
        .ok (⟨9, 0, 12⟩, data) ∧ data.len = 4 ∧ data.toBytes = [1, 2, 3, 4] := by
  refine ⟨by decide, ?_⟩
  obtain ⟨data, hd, hl, hb⟩ :=
    (spec_c8_header_size_invariant (.single [9, 0, 0, 0, 0, 0, 12, 0, 1, 2, 3, 4])
      (by decide)).2 (by decide) (by decide)
  exact ⟨data, hd, hl, hb⟩

/-! ### Ring-buffer cursor lemmas -/

theorem foldl_release_tail (sizes : List Nat) :
    ∀ st : RingState, st.tail + sizes.sum < 2 ^ 64 →
      (sizes.foldl releaseRecord st).tail = st.tail + sizes.sum := by
  induction sizes with
  | nil => intro st _; simp
  | cons s rest ih =>
    intro st hsum
    simp only [List.foldl_cons, List.sum_cons] at hsum ⊢
    have hstep : (releaseRecord st s).tail = st.tail + s := by
      simp only [releaseRecord]
      exact Nat.mod_eq_of_lt (by omega)
    rw [ih (releaseRecord st s) (by rw [hstep]; omega), hstep]
    omega

/-- The physical window computed by `next_record` covers, in order, exactly
the physical cells `(tail + j) % size` for `j < head - tail`: the unread
logical bytes `[tail, head)`. -/
theorem nextWindowSpans_logical (st : RingState) (hpos : 0 < st.size)
    (hle : st.tail ≤ st.head) (hbound : st.head - st.tail ≤ st.size) :
    ∀ spans, nextWindowSpans st = some spans →
      spanOffsets spans =
        (List.range (st.head - st.tail)).map (fun j => (st.tail + j) % st.size) := by
  intro spans hsp
  simp only [nextWindowSpans] at hsp
  by_cases hne : st.tail = st.head
  · rw [if_pos hne] at hsp
    exact Option.noConfusion hsp
  rw [if_neg hne] at hsp
  have hd1 : 1 ≤ st.head - st.tail := by omega
  set a := st.tail % st.size with ha
  set b := st.head % st.size with hbdef
  set d := st.head - st.tail with hddef
  have halt : a < st.size := Nat.mod_lt _ hpos
  have hblt : b < st.size := Nat.mod_lt _ hpos
  have hb : b = (a + d) % st.size := by
    rw [hbdef, ha, show st.head = st.tail + d by omega]
    exact (Nat.mod_add_mod st.tail st.size d).symm
  have hmod_tj : ∀ j, (st.tail + j) % st.size = (a + j) % st.size := by
    intro j
    rw [ha]
    exact (Nat.mod_add_mod st.tail st.size j).symm
  by_cases hcab : a < b
  · rw [if_pos hcab] at hsp
    have hdlt : d < st.size := by
      by_contra hge
      have hds : d = st.size := by omega
      rw [hds, Nat.add_mod_right, Nat.mod_eq_of_lt halt] at hb
      omega
    have hbad : b = a + d := by
      rcases Nat.lt_or_ge (a + d) st.size with hlt | hge
      · rw [Nat.mod_eq_of_lt hlt] at hb
        exact hb
      · rw [Nat.mod_eq_sub_mod hge, Nat.mod_eq_of_lt (by omega)] at hb
        omega
    obtain rfl : spans = [(a, b - a)] := by
      exact (Option.some.inj hsp).symm
    simp only [spanOffsets, List.map_cons, List.map_nil, List.flatten_cons,
      List.flatten_nil, List.append_nil]
    rw [show b - a = d by omega]
    refine (List.map_congr_left ?_).symm
    intro j hj
    rw [List.mem_range] at hj
    rw [hmod_tj j, Nat.mod_eq_of_lt (by omega)]
  · rw [if_neg hcab] at hsp
    have hble : b ≤ a := by omega
    have hge : st.size ≤ a + d := by
      by_contra hlt
      rw [Nat.mod_eq_of_lt (by omega)] at hb
      omega
    have hbad : b = a + d - st.size := by
      rw [Nat.mod_eq_sub_mod hge, Nat.mod_eq_of_lt (by omega)] at hb
      exact hb
    have hdsplit : d = (st.size - a) + b := by omega
    obtain rfl : spans = [(a, st.size - a), (0, b)] := by
      exact (Option.some.inj hsp).symm
    simp only [spanOffsets, List.map_cons, List.map_nil, List.flatten_cons,
      List.flatten_nil, List.append_nil]
    rw [hdsplit, List.range_add, List.map_append, List.map_map]
    congr 1
    · refine (List.map_congr_left ?_).symm
      intro j hj
      rw [List.mem_range] at hj
      rw [hmod_tj j, Nat.mod_eq_of_lt (by omega)]
    · refine (List.map_congr_left ?_).symm
      intro i hi
      rw [List.mem_range] at hi
      simp only [Function.comp_apply]
      rw [hmod_tj (st.size - a + i), show a + (st.size - a + i) = st.size + i by omega,
        Nat.add_comm st.size i, Nat.add_mod_right, Nat.mod_eq_of_lt (by omega)]
      omega

/-- C7: dropping a record advances the read cursor (`data_tail`) by exactly
the record's declared total length, once; the cursor is monotonically
non-decreasing across any sequence of releases (absent `u64` overflow); the
readable window of any state covers exactly the logical bytes
`[tail, head)` (as physical cells `(tail + j) % size`), so after a record of
`N` bytes is released no later window — whose cursor is at least
`tail + N` — ever contains those `N` logical bytes again. -/
theorem spec_c7_release_advances_tail (st : RingState) (N : Nat) :
    ((releaseRecord st N).tail = (st.tail + N) % 2 ^ 64)
    ∧ (st.tail + N < 2 ^ 64 → st.tail ≤ (releaseRecord st N).tail)
    ∧ (∀ sizes : List Nat, st.tail + N + sizes.sum < 2 ^ 64 →
        st.tail + N ≤ (sizes.foldl releaseRecord (releaseRecord st N)).tail)
    ∧ (∀ st' : RingState, 0 < st'.size → st'.tail ≤ st'.head →
        st'.head - st'.tail ≤ st'.size →
        ∀ spans, nextWindowSpans st' = some spans →
          spanOffsets spans =
            (List.range (st'.head - st'.tail)).map (fun j => (st'.tail + j) % st'.size))
    ∧ (∀ st' : RingState, st.tail + N ≤ st'.tail →
        ∀ j, st'.tail + j ∉ Set.Ico st.tail (st.tail + N)) := by
  refine ⟨rfl, ?_, ?_, ?_, ?_⟩
  · intro hlt
    simp only [releaseRecord, Nat.mod_eq_of_lt hlt]
    omega
  · intro sizes hsum
    have hstep : (releaseRecord st N).tail = st.tail + N := by
      simp only [releaseRecord]
      exact Nat.mod_eq_of_lt (by omega)
    rw [foldl_release_tail sizes (releaseRecord st N) (by rw [hstep]; omega), hstep]
    omega
  · intro st' h1 h2 h3 spans hsp
    exact nextWindowSpans_logical st' h1 h2 h3 spans hsp
  · intro st' hge j
    simp only [Set.mem_Ico, not_and, not_lt]
    intro _
    omega

/-! ### Claims about the record decoders -/

/-- C2: with an empty sample-type bitmask, `Sample::parse` reads nothing:
every optional field is `None` and `extra` is the entire payload. -/
theorem spec_c2_empty_sample_type (config : ParseConfig) (h : config.sample_type = 0)
    (buf : List Nat) :
    Sample.parse config buf = .ok (Sample.empty buf, []) := by
  obtain ⟨sty, rf, sia, ru, ri, bst⟩ := config
  simp only at h
  subst h
  simp [Sample.parse, hasFlag, Nat.zero_and, Sample.empty, SampleType.IP, SampleType.TID,
    SampleType.TIME, SampleType.ADDR, SampleType.READ, SampleType.CALLCHAIN, SampleType.ID,
    SampleType.CPU, SampleType.PERIOD, SampleType.STREAM_ID, SampleType.RAW,
    SampleType.BRANCH_STACK, SampleType.REGS_USER, SampleType.STACK_USER, SampleType.WEIGHT,
    SampleType.DATA_SRC, SampleType.IDENTIFIER, SampleType.TRANSACTION, SampleType.REGS_INTR,
    SampleType.PHYS_ADDR, SampleType.AUX, SampleType.CGROUP, SampleType.DATA_PAGE_SIZE,
    SampleType.CODE_PAGE_SIZE, SampleType.WEIGHT_STRUCT]
  rfl

theorem spec_c2_empty_sample_type_witness :
    (⟨0, 0, false, 0, 0, 0⟩ : ParseConfig).sample_type = 0 ∧
    Sample.parse ⟨0, 0, false, 0, 0, 0⟩ [5, 6, 7] = .ok (Sample.empty [5, 6, 7], []) :=
  ⟨rfl, spec_c2_empty_sample_type ⟨0, 0, false, 0, 0, 0⟩ rfl [5, 6, 7]⟩

/-- C3: with read-format bits `TOTAL_TIME_ENABLED`, `TOTAL_TIME_RUNNING` and
`ID` all set (and `GROUP` unset), `CounterValue::parse` consumes exactly 32
bytes — four consecutive native-endian `u64`s decoded in the order
value, time_enabled, time_running, id — and all three optional fields are
`Some`; `ReadValue::parse` dispatches to it. -/
theorem spec_c3_counter_value_layout (config : ParseConfig)
    (h1 : hasFlag config.read_format ReadFormat.TOTAL_TIME_ENABLED = true)
    (h2 : hasFlag config.read_format ReadFormat.TOTAL_TIME_RUNNING = true)
    (h3 : hasFlag config.read_format ReadFormat.ID = true)
    (h4 : hasFlag config.read_format ReadFormat.GROUP = false)
    (bv be br bi rest : List Nat)
    (lv : bv.length = 8) (le : be.length = 8) (lr : br.length = 8) (li : bi.length = 8) :
    CounterValue.parse config (bv ++ be ++ br ++ bi ++ rest) =
      .ok ({ value := leNat bv, time_enabled := some (leNat be),
             time_running := some (leNat br), id := some (leNat bi) }, rest)
    ∧ ReadValue.parse config (bv ++ be ++ br ++ bi ++ rest) =
      .ok (.counter { value := leNat bv, time_enabled := some (leNat be),
                      time_running := some (leNat br), id := some (leNat bi) }, rest) := by
  have hcv : CounterValue.parse config (bv ++ be ++ br ++ bi ++ rest) =
      .ok ({ value := leNat bv, time_enabled := some (leNat be),
             time_running := some (leNat br), id := some (leNat bi) }, rest) := by
    simp [CounterValue.parse, h1, h2, h3, getU64_append _ lv, getU64_append _ le,
      getU64_append _ lr, getU64_append _ li]
    rfl
  refine ⟨hcv, ?_⟩
  have hsel : ReadValue.parse config =
      PM.bind (CounterValue.parse config) fun c => PM.pure (ReadValue.counter c) := by
    simp [ReadValue.parse, h4]
  rw [hsel, PM.run_bind, hcv]
  rfl

theorem spec_c3_counter_value_layout_witness :
    hasFlag (⟨0, 7, false, 0, 0, 0⟩ : ParseConfig).read_format ReadFormat.TOTAL_TIME_ENABLED
        = true ∧
    CounterValue.parse ⟨0, 7, false, 0, 0, 0⟩
        ([1, 0, 0, 0, 0, 0, 0, 0] ++ [2, 0, 0, 0, 0, 0, 0, 0] ++ [3, 0, 0, 0, 0, 0, 0, 0] ++
          [4, 1, 0, 0, 0, 0, 0, 0] ++ [9, 9]) =
      .ok ({ value := leNat [1, 0, 0, 0, 0, 0, 0, 0],
             time_enabled := some (leNat [2, 0, 0, 0, 0, 0, 0, 0]),
             time_running := some (leNat [3, 0, 0, 0, 0, 0, 0, 0]),
             id := some (leNat [4, 1, 0, 0, 0, 0, 0, 0]) }, [9, 9]) :=
  ⟨by decide,
    (spec_c3_counter_value_layout ⟨0, 7, false, 0, 0, 0⟩ (by decide) (by decide) (by decide)
      (by decide) [1, 0, 0, 0, 0, 0, 0, 0] [2, 0, 0, 0, 0, 0, 0, 0] [3, 0, 0, 0, 0, 0, 0, 0]
      [4, 1, 0, 0, 0, 0, 0, 0] [9, 9] rfl rfl rfl rfl).1⟩

/-- C5: the claim says insufficient bytes surface as a per-record error
result; in this code they do not — `ParseBuf::parse_vec` begins with
`assert!(len <= self.remaining())` and the `bytes::Buf` getters used by
`Sample::parse` panic on underflow, despite the trait's own doc comment
("parsing data out of a `Buf` without panicking").  Evaluating each decoder
at a too-short input yields the panic outcome, never an error value. -/
theorem spec_c5_short_read_panics :
    parse_vec 1 ([] : List Nat) = (POr.panics : POr (List Nat × List Nat))
    ∧ parse_bytes 4 [0, 1] = (POr.panics : POr (List Nat × List Nat))
    ∧ Sample.parse ⟨SampleType.IP, 0, false, 0, 0, 0⟩ [] =
        (POr.panics : POr (Sample × List Nat))
    ∧ Sample.parse ⟨SampleType.RAW, 0, false, 0, 0, 0⟩ [16, 0, 0, 0, 0, 0, 0, 0] =
        (POr.panics : POr (Sample × List Nat)) := by
  refine ⟨rfl, rfl, ?_, ?_⟩ <;> decide

/-- C10: when both `IDENTIFIER` and `ID` are set, `Sample::parse` consumes
both 64-bit values (`IDENTIFIER` first, at the start of the record, `ID`
later) and the returned `id` field equals the value read at the `ID`
position; the `IDENTIFIER` value is used for `id` only when `ID` is unset. -/
theorem spec_c10_identifier_vs_id (b1 b2 rest rest2 : List Nat)
    (h1 : b1.length = 8) (h2 : b2.length = 8) :
    Sample.parse ⟨SampleType.IDENTIFIER ||| SampleType.ID, 0, false, 0, 0, 0⟩
        (b1 ++ b2 ++ rest) =
      .ok ({ Sample.empty rest with id := some (leNat b2) }, [])
    ∧ Sample.parse ⟨SampleType.IDENTIFIER, 0, false, 0, 0, 0⟩ (b1 ++ rest2) =
      .ok ({ Sample.empty rest2 with id := some (leNat b1) }, []) := by
  have hboth :
      hasFlag (SampleType.IDENTIFIER ||| SampleType.ID) SampleType.IDENTIFIER = true
      ∧ hasFlag (SampleType.IDENTIFIER ||| SampleType.ID) SampleType.ID = true
      ∧ hasFlag (SampleType.IDENTIFIER ||| SampleType.ID) SampleType.IP = false
      ∧ hasFlag (SampleType.IDENTIFIER ||| SampleType.ID) SampleType.TID = false
      ∧ hasFlag (SampleType.IDENTIFIER ||| SampleType.ID) SampleType.TIME = false
      ∧ hasFlag (SampleType.IDENTIFIER ||| SampleType.ID) SampleType.ADDR = false
      ∧ hasFlag (SampleType.IDENTIFIER ||| SampleType.ID) SampleType.STREAM_ID = false
      ∧ hasFlag (SampleType.IDENTIFIER ||| SampleType.ID) SampleType.CPU = false
      ∧ hasFlag (SampleType.IDENTIFIER ||| SampleType.ID) SampleType.PERIOD = false
      ∧ hasFlag (SampleType.IDENTIFIER ||| SampleType.ID) SampleType.READ = false
      ∧ hasFlag (SampleType.IDENTIFIER ||| SampleType.ID) SampleType.CALLCHAIN = false
      ∧ hasFlag (SampleType.IDENTIFIER ||| SampleType.ID) SampleType.RAW = false
      ∧ hasFlag (SampleType.IDENTIFIER ||| SampleType.ID) SampleType.BRANCH_STACK = false
      ∧ hasFlag (SampleType.IDENTIFIER ||| SampleType.ID) SampleType.REGS_USER = false
      ∧ hasFlag (SampleType.IDENTIFIER ||| SampleType.ID) SampleType.STACK_USER = false
      ∧ hasFlag (SampleType.IDENTIFIER ||| SampleType.ID) SampleType.WEIGHT = false
      ∧ hasFlag (SampleType.IDENTIFIER ||| SampleType.ID) SampleType.WEIGHT_STRUCT = false
      ∧ hasFlag (SampleType.IDENTIFIER ||| SampleType.ID) SampleType.DATA_SRC = false
      ∧ hasFlag (SampleType.IDENTIFIER ||| SampleType.ID) SampleType.TRANSACTION = false
      ∧ hasFlag (SampleType.IDENTIFIER ||| SampleType.ID) SampleType.REGS_INTR = false
      ∧ hasFlag (SampleType.IDENTIFIER ||| SampleType.ID) SampleType.PHYS_ADDR = false
      ∧ hasFlag (SampleType.IDENTIFIER ||| SampleType.ID) SampleType.CGROUP = false
      ∧ hasFlag (SampleType.IDENTIFIER ||| SampleType.ID) SampleType.DATA_PAGE_SIZE = false
      ∧ hasFlag (SampleType.IDENTIFIER ||| SampleType.ID) SampleType.CODE_PAGE_SIZE = false
      ∧ hasFlag (SampleType.IDENTIFIER ||| SampleType.ID) SampleType.AUX = false := by
    decide
  have honly :
      hasFlag SampleType.IDENTIFIER SampleType.IDENTIFIER = true
      ∧ hasFlag SampleType.IDENTIFIER SampleType.ID = false
      ∧ hasFlag SampleType.IDENTIFIER SampleType.IP = false
      ∧ hasFlag SampleType.IDENTIFIER SampleType.TID = false
      ∧ hasFlag SampleType.IDENTIFIER SampleType.TIME = false
      ∧ hasFlag SampleType.IDENTIFIER SampleType.ADDR = false
      ∧ hasFlag SampleType.IDENTIFIER SampleType.STREAM_ID = false
      ∧ hasFlag SampleType.IDENTIFIER SampleType.CPU = false
      ∧ hasFlag SampleType.IDENTIFIER SampleType.PERIOD = false
      ∧ hasFlag SampleType.IDENTIFIER SampleType.READ = false
      ∧ hasFlag SampleType.IDENTIFIER SampleType.CALLCHAIN = false
      ∧ hasFlag SampleType.IDENTIFIER SampleType.RAW = false
      ∧ hasFlag SampleType.IDENTIFIER SampleType.BRANCH_STACK = false
      ∧ hasFlag SampleType.IDENTIFIER SampleType.REGS_USER = false
      ∧ hasFlag SampleType.IDENTIFIER SampleType.STACK_USER = false
      ∧ hasFlag SampleType.IDENTIFIER SampleType.WEIGHT = false
      ∧ hasFlag SampleType.IDENTIFIER SampleType.WEIGHT_STRUCT = false
      ∧ hasFlag SampleType.IDENTIFIER SampleType.DATA_SRC = false
      ∧ hasFlag SampleType.IDENTIFIER SampleType.TRANSACTION = false
      ∧ hasFlag SampleType.IDENTIFIER SampleType.REGS_INTR = false
      ∧ hasFlag SampleType.IDENTIFIER SampleType.PHYS_ADDR = false
      ∧ hasFlag SampleType.IDENTIFIER SampleType.CGROUP = false
      ∧ hasFlag SampleType.IDENTIFIER SampleType.DATA_PAGE_SIZE = false
      ∧ hasFlag SampleType.IDENTIFIER SampleType.CODE_PAGE_SIZE = false
      ∧ hasFlag SampleType.IDENTIFIER SampleType.AUX = false := by
    decide
  constructor
  · simp [Sample.parse, hboth, Sample.empty, getU64_append _ h1, getU64_append _ h2]
    rfl
  · simp [Sample.parse, honly, Sample.empty, getU64_append _ h1]
    rfl

/-- C4: `Registers::parse_regs` reads the 8-byte ABI tag first; when it is
the `PERF_SAMPLE_REGS_ABI_NONE` sentinel (0) it consumes nothing further and
returns an empty register list with a stored mask of 0, regardless of the
configured mask; otherwise it reads exactly one 64-bit value per set bit of
the configured mask. -/
theorem spec_c4_regs_abi_none (mask : Nat) (h8 rest : List Nat) (hlen : h8.length = 8) :
    (leNat h8 = 0 →
      Registers.parse_regs mask (h8 ++ rest) = .ok ({ abi := 0, mask := 0, regs := [] }, rest))
    ∧ (leNat h8 ≠ 0 → 8 * countOnes64 mask ≤ rest.length →
      ∃ regs, Registers.parse_regs mask (h8 ++ rest) =
          .ok ({ abi := leNat h8, mask := mask, regs }, rest.drop (8 * countOnes64 mask))
        ∧ regs.length = countOnes64 mask) := by
  constructor
  · intro h0
    simp [Registers.parse_regs, getU64_append _ hlen, h0, SampleRegsAbi.NONE,
      (by decide : countOnes64 0 = 0), replicatePM]
    rfl
  · intro hne hroom
    obtain ⟨vals, hv, hl⟩ := consumes_replicate_getU64 (countOnes64 mask) rest hroom
    refine ⟨vals, ?_, hl⟩
    simp [Registers.parse_regs, getU64_append _ hlen, SampleRegsAbi.NONE, hne, hv]
    rfl

theorem spec_c4_regs_abi_none_witness :
    ([0, 0, 0, 0, 0, 0, 0, 0] : List Nat).length = 8 ∧
    Registers.parse_regs 5 ([0, 0, 0, 0, 0, 0, 0, 0] ++ [9, 9]) =
      .ok ({ abi := 0, mask := 0, regs := [] }, [9, 9]) :=
  ⟨rfl, (spec_c4_regs_abi_none 5 [0, 0, 0, 0, 0, 0, 0, 0] [9, 9] rfl).1 (by decide)⟩

theorem expected_size_eq_sum (config : ParseConfig) (h : config.sample_id_all = true) :
    SampleId.expected_size config =
      (if hasFlag config.sample_type SampleType.TID then 8 else 0) +
      ((if hasFlag config.sample_type SampleType.TIME then 8 else 0) +
       ((if hasFlag config.sample_type SampleType.ID then 8 else 0) +
        ((if hasFlag config.sample_type SampleType.STREAM_ID then 8 else 0) +
         ((if hasFlag config.sample_type SampleType.CPU then 8 else 0) +
          ((if hasFlag config.sample_type SampleType.IDENTIFIER then 8 else 0) + 0))))) := by
  simp only [SampleId.expected_size, h, Bool.not_true, Bool.false_eq_true, if_false,
    List.countP_cons, List.countP_nil]
  split_ifs <;> omega

theorem sampleId_parse_consumes (config : ParseConfig) :
    Consumes (SampleId.parse config) (SampleId.expected_size config) := by
  by_cases hall : config.sample_id_all = true
  · rw [expected_size_eq_sum config hall]
    unfold SampleId.parse
    rw [hall]
    simp only [Bool.not_true, Bool.false_eq_true, if_false]
    exact consumes_bind
      (consumes_condParse _ (consumes_bind consumes_getU32 (fun _ =>
        consumes_bind consumes_getU32 (fun _ => consumes_pure _))))
      (fun _ => consumes_bind (consumes_condParse _ consumes_getU64)
      (fun _ => consumes_bind (consumes_condParse _ consumes_getU64)
      (fun _ => consumes_bind (consumes_condParse _ consumes_getU64)
      (fun _ => consumes_bind
        (consumes_condParse _ (consumes_bind consumes_getU32 (fun _ =>
          consumes_bind consumes_getU32 (fun _ => consumes_pure _))))
      (fun _ => consumes_bind (consumes_condParse _ consumes_getU64)
      (fun _ => consumes_pure _))))))
  · have hfalse : config.sample_id_all = false := by
      simpa using hall
    intro buf _
    refine ⟨SampleId.default, ?_⟩
    simp [SampleId.parse, SampleId.expected_size, hfalse]

/-- C9: `SampleId::parse` consumes exactly `SampleId::expected_size(config)`
bytes whenever enough are available: zero when `sample_id_all` is unset, and
otherwise 8 bytes per set flag among TID (two `u32`s), TIME, ID, STREAM_ID,
CPU (`u32` + 32 reserved bits) and IDENTIFIER — so the trailer length
`Record::parse` splits off always agrees with what the trailer parser
consumes. -/
theorem spec_c9_sample_id_size_agreement (config : ParseConfig) (buf : List Nat) :
    (config.sample_id_all = false →
      SampleId.expected_size config = 0
      ∧ SampleId.parse config buf = .ok (SampleId.default, buf))
    ∧ SampleId.expected_size config =
      (if config.sample_id_all then
        (if hasFlag config.sample_type SampleType.TID then 8 else 0) +
        (if hasFlag config.sample_type SampleType.TIME then 8 else 0) +
        (if hasFlag config.sample_type SampleType.ID then 8 else 0) +
        (if hasFlag config.sample_type SampleType.STREAM_ID then 8 else 0) +
        (if hasFlag config.sample_type SampleType.CPU then 8 else 0) +
        (if hasFlag config.sample_type SampleType.IDENTIFIER then 8 else 0)
      else 0)
    ∧ (SampleId.expected_size config ≤ buf.length →
      ∃ sid, SampleId.parse config buf = .ok (sid, buf.drop (SampleId.expected_size config))) := by
  refine ⟨?_, ?_, ?_⟩
  · intro hfalse
    refine ⟨by simp [SampleId.expected_size, hfalse], ?_⟩
    simp [SampleId.parse, hfalse]
  · by_cases hall : config.sample_id_all = true
    · rw [expected_size_eq_sum config hall, hall]
      simp only [if_true]
      omega
    · have hfalse : config.sample_id_all = false := by simpa using hall
      simp [SampleId.expected_size, hfalse]
  · intro hle
    exact sampleId_parse_consumes config buf hle

/-- C6: `Record::parse` reserves no trailer bytes for `MMAP` and `SAMPLE`
records even when `sample_id_all` is set, synthesizing the `SampleId` from
the decoded payload (pid/tid from the mmap payload; pid/tid/time/id/
stream_id/cpu from the decoded sample); for every other type tag with
`sample_id_all` set it splits off exactly `SampleId::expected_size(config)`
trailing bytes and parses them as the `SampleId`. -/
theorem spec_c6_sample_id_trailer_dispatch (config : ParseConfig) (hdr : EventHeader)
    (buf : List Nat) :
    (hdr.ty = RecordType.MMAP →
      ∀ m leftover, Mmap.parse config buf = .ok (m, leftover) →
        Record.parse config hdr buf =
          .ok { ty := hdr.ty, misc := hdr.misc, event := .mmap m,
                sample_id := { SampleId.default with pid := some m.pid, tid := some m.tid } })
    ∧ (hdr.ty = RecordType.SAMPLE →
      ∀ s leftover, Sample.parse config buf = .ok (s, leftover) →
        Record.parse config hdr buf =
          .ok { ty := hdr.ty, misc := hdr.misc, event := .sample s,
                sample_id := { pid := s.pid, tid := s.tid, time := s.time, id := s.id,
                               stream_id := s.stream_id, cpu := s.cpu } })
    ∧ (hdr.ty ≠ RecordType.MMAP → hdr.ty ≠ RecordType.SAMPLE →
      config.sample_id_all = true →
      SampleId.expected_size config ≤ buf.length →
      ∀ ev, parseEvent config hdr.misc hdr.ty
          (buf.take (buf.length - SampleId.expected_size config)) = .ok ev →
        ∃ sid,
          SampleId.parse config (buf.drop (buf.length - SampleId.expected_size config)) =
            .ok (sid, [])
          ∧ Record.parse config hdr buf =
              .ok { ty := hdr.ty, misc := hdr.misc, event := ev, sample_id := sid }) := by
  refine ⟨?_, ?_, ?_⟩
  · intro hty m leftover hm
    simp [Record.parse, hty, parseEvent, runEvent, hm, SampleId.default]
  · intro hty s leftover hs
    simp [Record.parse, hty, parseEvent, runEvent, hs, RecordType.MMAP, RecordType.LOST,
      RecordType.COMM, RecordType.EXIT, RecordType.THROTTLE, RecordType.UNTHROTTLE,
      RecordType.FORK, RecordType.READ, RecordType.SAMPLE]
  · intro hm1 hm2 hall hlen ev hev
    have htr_len : (buf.drop (buf.length - SampleId.expected_size config)).length =
        SampleId.expected_size config := by
      simp [List.length_drop]
      omega
    have hlen2 : SampleId.expected_size config ≤
        (buf.drop (buf.length - SampleId.expected_size config)).length := by
      rw [htr_len]
    obtain ⟨sid, hsid⟩ := sampleId_parse_consumes config
      (buf.drop (buf.length - SampleId.expected_size config)) hlen2
    have hnil : (buf.drop (buf.length - SampleId.expected_size config)).drop
        (SampleId.expected_size config) = [] := by
      apply List.drop_eq_nil_of_le
      rw [htr_len]
    rw [hnil] at hsid
    refine ⟨sid, hsid, ?_⟩
    simp [Record.parse, hm1, hm2, hev, hsid,
      (by omega : ¬ buf.length < SampleId.expected_size config)]
    exact hlen

theorem spec_c6_sample_id_trailer_dispatch_witness :
    (⟨RecordType.FORK, 0, 40⟩ : EventHeader).ty ≠ RecordType.MMAP ∧
    ∃ sid,
      SampleId.parse ⟨SampleType.TIME, 0, true, 0, 0, 0⟩
          (([1, 0, 0, 0, 2, 0, 0, 0, 3, 0, 0, 0, 4, 0, 0, 0,
             5, 0, 0, 0, 0, 0, 0, 0, 6, 0, 0, 0, 0, 0, 0, 0] : List Nat).drop
            ((32 : Nat) - SampleId.expected_size ⟨SampleType.TIME, 0, true, 0, 0, 0⟩)) =
        .ok (sid, [])
      ∧ Record.parse ⟨SampleType.TIME, 0, true, 0, 0, 0⟩ ⟨RecordType.FORK, 0, 40⟩
          [1, 0, 0, 0, 2, 0, 0, 0, 3, 0, 0, 0, 4, 0, 0, 0,
           5, 0, 0, 0, 0, 0, 0, 0, 6, 0, 0, 0, 0, 0, 0, 0] =
        .ok { ty := RecordType.FORK, misc := 0,
              event := .fork { pid := 1, ppid := 2, tid := 3, ptid := 4,
                               time := 5 },
              sample_id := sid } := by
  refine ⟨by decide, ?_⟩
  have h := (spec_c6_sample_id_trailer_dispatch ⟨SampleType.TIME, 0, true, 0, 0, 0⟩
      ⟨RecordType.FORK, 0, 40⟩
      [1, 0, 0, 0, 2, 0, 0, 0, 3, 0, 0, 0, 4, 0, 0, 0,
       5, 0, 0, 0, 0, 0, 0, 0, 6, 0, 0, 0, 0, 0, 0, 0]).2.2
    (by decide) (by decide) rfl (by decide)
    (.fork { pid := 1, ppid := 2, tid := 3, ptid := 4, time := 5 }) (by decide)
  obtain ⟨sid, h1, h2⟩ := h
  exact ⟨sid, h1, h2⟩

theorem spec_c10_identifier_vs_id_witness :
    ([11, 0, 0, 0, 0, 0, 0, 0] : List Nat).length = 8 ∧
    Sample.parse ⟨SampleType.IDENTIFIER ||| SampleType.ID, 0, false, 0, 0, 0⟩
        ([11, 0, 0, 0, 0, 0, 0, 0] ++ [22, 0, 0, 0, 0, 0, 0, 0] ++ [7]) =
      .ok ({ Sample.empty [7] with id := some (leNat [22, 0, 0, 0, 0, 0, 0, 0]) }, []) :=
  ⟨rfl, (spec_c10_identifier_vs_id [11, 0, 0, 0, 0, 0, 0, 0] [22, 0, 0, 0, 0, 0, 0, 0]
    [7] [] rfl rfl).1⟩

